import Mathlib

/-!
# checkmint: checked values with type-level invariant sets

A shallow embedding of `src/checkmint.hpp` and of the programs under
`src/examples/`.

* A pack of invariant types `Ts...` is a `List Tag` (order and repetitions kept,
  as in a template parameter pack); `std::is_same_v` is decidable equality on `Tag`.
* Calling a predicate object, `N{}(v)`, is `inv N v : Except Failure Unit`:
  `.ok ()` when the call returns, `.error e` when it signals `e`.  Under the
  default policy a rejecting predicate throws `std::logic_error`.
* `CheckedVar<T, Ts...>` is a record holding the pack `Ts` and the payload `m_val`.
* A member function that can throw after reading `*this` returns the outcome
  together with the object as it is after the call.
* A program the compiler refuses (a failed `static_assert`, a template-id with the
  wrong number of arguments) is an `.error` with a build-time `Failure`.
-/

namespace checkmint

/-- The four build configurations of `checkmint.hpp` lines 3-14. -/
inductive Policy where
  | ASSERT_ON_INVARIANT_VIOLATION
  | IGNORE_ON_INVARIANT_VIOLATION
  | EXIT_ON_INVARIANT_VIOLATION
  | THROW_ON_INVARIANT_VIOLATION
  deriving DecidableEq, Repr

/-- Ways in which an operation does not deliver its result. The first three are
run-time signals; with the last two the program is not built. -/
inductive Failure where
  /-- `throw std::logic_error(msg)` -/
  | logic_error (msg : String)
  /-- a failed `assert` -/
  | assert_abort (msg : String)
  /-- `exit(code)` -/
  | exit_process (code : Int)
  /-- a `static_assert` whose condition is false -/
  | static_assert_failed (msg : String)
  /-- an expression that does not instantiate, such as `std::is_same_v` given a
  number of arguments other than two -/
  | ill_formed
  deriving DecidableEq, Repr

/-- Line 20: `int invariant_violation(const std::string& msg) { throw std::logic_error(msg); }` -/
def invariant_violation (msg : String) : Except Failure Int :=
  .error (.logic_error msg)

/-- Lines 3-14: the macro `CHECKMINT_SIGNAL_VIOLATION_IF_FALSE(cond, msg)` under each policy. -/
def CHECKMINT_SIGNAL_VIOLATION_IF_FALSE (pol : Policy) (cond : Bool) (msg : String) :
    Except Failure Unit :=
  match pol with
  | .ASSERT_ON_INVARIANT_VIOLATION =>
      -- `assert(cond && msg)`: a string literal is a non-null pointer
      if cond && true then .ok () else .error (.assert_abort msg)
  | .IGNORE_ON_INVARIANT_VIOLATION => .ok ()
  | .EXIT_ON_INVARIANT_VIOLATION =>
      if !cond then .error (.exit_process (-1)) else .ok ()
  | .THROW_ON_INVARIANT_VIOLATION =>
      if !cond then
        match invariant_violation msg with
        | .ok _ => .ok ()
        | .error e => .error e
      else .ok ()

section core

variable {Tag : Type} [DecidableEq Tag] {T U : Type}

/-- Lines 220-225: `(Ts{}(v), ...)`, the predicates called in pack order; a signal
raised by one of them leaves the fold. -/
def check_invariants (inv : Tag → T → Except Failure Unit) : List Tag → T → Except Failure Unit
  | [], _ => .ok ()
  | N :: Ns, v =>
    match inv N v with
    | .ok _ => check_invariants inv Ns v
    | .error e => .error e

/-- Lines 42-47. -/
def post_condition (inv : Tag → T → Except Failure Unit) (Ts : List Tag) (v : T) :
    Except Failure Unit :=
  check_invariants inv Ts v

/-- Lines 50-55. -/
def pre_condition (inv : Tag → T → Except Failure Unit) (Ts : List Tag) (v : T) :
    Except Failure Unit :=
  check_invariants inv Ts v

/-- Lines 63-64: `contains<T, Ts...> = (std::is_same_v<T, Ts> || ...)`. -/
def contains (N : Tag) : List Tag → Bool
  | [] => false
  | M :: Ms => decide (N = M) || contains N Ms

/-- Lines 69-72: `is_subset<type_list<Ts...>, type_list<Us...>>`, that is
`(contains<Ts, Us...> && ...)`. -/
def is_subset : List Tag → List Tag → Bool
  | [], _ => true
  | N :: Ns, Us => contains N Us && is_subset Ns Us

/-- Lines 74-75: the concept `IsSubset<Subset, Set>`. -/
def IsSubset (Subset Set : List Tag) : Bool :=
  is_subset Subset Set

/-- The expression `std::is_same_v<Ts..., Us...>` of lines 129 and 145 on the
concatenated pack: it has a value only when the pack expands to two types. -/
def is_same_v : List Tag → Option Bool
  | [A, B] => some (decide (A = B))
  | _ => none

/-- Lines 80-217: `CheckedVar<T, Ts...>`. -/
structure CheckedVar (Tag : Type) (T : Type) where
  /-- the pack `Ts...` of the type -/
  Ts : List Tag
  /-- line 216 -/
  m_val : T
  deriving DecidableEq, Repr

/-- Lines 162-163: `value()`. -/
def CheckedVar.value (self : CheckedVar Tag T) : T :=
  self.m_val

/-- Line 213: the bypass constructor `CheckedVar(const T& value, std::true_type)`. -/
def CheckedVar.bypass (Ts : List Tag) (value : T) : CheckedVar Tag T :=
  { Ts := Ts, m_val := value }

/-- Lines 85-89: the constructor `CheckedVar<T, Ts...>(const T& value)`. -/
def CheckedVar.from_value (inv : Tag → T → Except Failure Unit) (Ts : List Tag) (value : T) :
    Except Failure (CheckedVar Tag T) :=
  match check_invariants inv Ts value with
  | .ok _ => .ok { Ts := Ts, m_val := value }
  | .error e => .error e

/-- Lines 92-116: `CheckedVar<T, Ts...>(const CheckedVar<T, Us...>& v)` and its
rvalue twin. Overload resolution takes the constrained constructor when
`IsSubset<type_list<Us...>, type_list<Ts...>>` holds, where `Us...` is the pack of
the argument, and the unconstrained one otherwise. -/
def CheckedVar.from_checked (inv : Tag → T → Except Failure Unit) (Ts : List Tag)
    (v : CheckedVar Tag T) : Except Failure (CheckedVar Tag T) :=
  if IsSubset v.Ts Ts then
    .ok { Ts := Ts, m_val := v.value }
  else
    match check_invariants inv Ts v.value with
    | .ok _ => .ok { Ts := Ts, m_val := v.value }
    | .error e => .error e

/-- Lines 118-131: `operator CheckedVar<T, Us...>() const` on a `CheckedVar<T, Ts...>`. -/
def CheckedVar.convert_to (inv : Tag → T → Except Failure Unit) (self : CheckedVar Tag T)
    (Us : List Tag) : Except Failure (CheckedVar Tag T) :=
  if IsSubset Us self.Ts then
    CheckedVar.from_value inv Us self.m_val
  else
    match is_same_v (self.Ts ++ Us) with
    | some true => CheckedVar.from_value inv Us self.m_val
    | some false =>
      .error (.static_assert_failed
        "Invalid conversion requested: Cannot convert to a type with additional constraints.")
    | none => .error .ill_formed

/-- Lines 133-147: `operator=(const CheckedVar<T, Us...>& v)` on a
`CheckedVar<T, Ts...>`; the second component is `*this` after the call. -/
def CheckedVar.assign (self v : CheckedVar Tag T) : Except Failure Unit × CheckedVar Tag T :=
  if IsSubset self.Ts v.Ts then
    (.ok (), { self with m_val := v.value })
  else
    match is_same_v (self.Ts ++ v.Ts) with
    | some true => (.ok (), self)
    | some false =>
      (.error (.static_assert_failed
        "Invalid assignment requested: Cannot assign to a type with fewer constraints."), self)
    | none => (.error .ill_formed, self)

/-- Lines 149-155: `modify(Func&& f)`; `f` receives a copy of the payload by
reference and the second component is `*this` after the call. -/
def CheckedVar.modify (inv : Tag → T → Except Failure Unit) (self : CheckedVar Tag T)
    (f : T → T) : Except Failure Unit × CheckedVar Tag T :=
  let new_val := f self.m_val
  match check_invariants inv self.Ts new_val with
  | .ok _ => (.ok (), { self with m_val := new_val })
  | .error e => (.error e, self)

/-- Lines 157-160: `map(Func&& f) const`; the predicates are instantiated at the
result type `U` of `f`. -/
def CheckedVar.map (invU : Tag → U → Except Failure Unit) (self : CheckedVar Tag T)
    (f : T → U) : Except Failure (CheckedVar Tag U) :=
  CheckedVar.from_value invU self.Ts (f self.m_val)

/-- Lines 228-240: `add_unique_invariant<N>(valid)`. -/
def add_unique_invariant (inv : Tag → T → Except Failure Unit) (N : Tag)
    (valid : CheckedVar Tag T) : Except Failure (CheckedVar Tag T) :=
  if !contains N valid.Ts then
    match check_invariants inv [N] valid.value with
    | .ok _ => .ok (CheckedVar.bypass (valid.Ts ++ [N]) valid.value)
    | .error e => .error e
  else
    CheckedVar.from_value inv valid.Ts valid.value

/-- Lines 242-248: `validate<Ts...>(const T& v)`. -/
def validate (inv : Tag → T → Except Failure Unit) (Ts : List Tag) (v : T) :
    Except Failure (CheckedVar Tag T) :=
  match check_invariants inv Ts v with
  | .ok _ => CheckedVar.from_value inv Ts v
  | .error e => .error e

/-- Lines 250-256: `validate<Ns...>(const CheckedVar<T, Ts...>& v)`. -/
def validate_checked (inv : Tag → T → Except Failure Unit) (Ns : List Tag)
    (v : CheckedVar Tag T) : Except Failure (CheckedVar Tag T) :=
  match check_invariants inv Ns v.value with
  | .ok _ => .ok (CheckedVar.bypass (v.Ts ++ Ns) v.value)
  | .error e => .error e

/-- Lines 166-168: `operator<=>(const T& value) const`; the three-way comparison of
the payload type is its `compare`. -/
def CheckedVar.spaceship [Ord T] (self : CheckedVar Tag T) (value : T) : Ordering :=
  compare self.value value

/-- Lines 170-172: `operator+(const T& value) const`; the result has the type `R` the
payload's own operator returns. -/
def CheckedVar.add {R : Type} [HAdd T T R] (self : CheckedVar Tag T) (value : T) : R :=
  self.value + value

/-- Lines 174-176: `operator-(const T& value) const`. -/
def CheckedVar.sub {R : Type} [HSub T T R] (self : CheckedVar Tag T) (value : T) : R :=
  self.value - value

/-- Lines 178-180: `operator*(const T& value) const`. -/
def CheckedVar.mul {R : Type} [HMul T T R] (self : CheckedVar Tag T) (value : T) : R :=
  self.value * value

/-- Lines 182-184: `operator/(const T& value) const`. -/
def CheckedVar.div {R : Type} [HDiv T T R] (self : CheckedVar Tag T) (value : T) : R :=
  self.value / value

/-- Lines 186-189: `operator<=>(const CheckedVar<T, Us...>& other) const`. -/
def CheckedVar.spaceship_checked [Ord T] (self other : CheckedVar Tag T) : Ordering :=
  compare self.value other.value

/-- Lines 191-194: `operator+(const CheckedVar<T, Us...>& v) const`. -/
def CheckedVar.add_checked {R : Type} [HAdd T T R] (self v : CheckedVar Tag T) : R :=
  self.value + v.value

/-- Lines 196-199: `operator-(const CheckedVar<T, Us...>& v) const`. -/
def CheckedVar.sub_checked {R : Type} [HSub T T R] (self v : CheckedVar Tag T) : R :=
  self.value - v.value

/-- Lines 201-204: `operator*(const CheckedVar<T, Us...>& v) const`. -/
def CheckedVar.mul_checked {R : Type} [HMul T T R] (self v : CheckedVar Tag T) : R :=
  self.value * v.value

/-- Lines 206-209: `operator/(const CheckedVar<T, Us...>& v) const`. -/
def CheckedVar.div_checked {R : Type} [HDiv T T R] (self v : CheckedVar Tag T) : R :=
  self.value / v.value

end core

/-! ## `examples/OrderedPair.hpp` -/

/-- `OrderedPair.hpp` lines 6-9. -/
structure OrderedPair where
  first : Int
  second : Int
  deriving DecidableEq, Repr

/-- `OrderedPair.hpp` lines 11-17. -/
def FirstSmallerThanSecond (pol : Policy) (p : OrderedPair) : Except Failure Unit :=
  CHECKMINT_SIGNAL_VIOLATION_IF_FALSE pol (decide (p.first < p.second))
    "First number is not smaller than the second"

/-- The invariant types used with `OrderedPair`. -/
inductive PairTag where
  | FirstSmallerThanSecond
  deriving DecidableEq, Repr

/-- Calling `N{}(p)` for the invariant types of `OrderedPair.hpp`. -/
def pairInv (pol : Policy) : PairTag → OrderedPair → Except Failure Unit
  | .FirstSmallerThanSecond => FirstSmallerThanSecond pol

/-- `OrderedPair.hpp` line 19: the pack of `ValidOrderedPair`. -/
def ValidOrderedPair : List PairTag :=
  [.FirstSmallerThanSecond]

/-- `OrderedPair.hpp` line 27: the lambda `[](OrderedPair& v) { v.first = 3; }`. -/
def set_first_3 (v : OrderedPair) : OrderedPair :=
  { v with first := 3 }

/-! ## `examples/concepts.hpp` -/

/-- Modelled from the spec: the predicate type `ZeroOrPositive` is used by
`concepts.hpp` line 9 and defined in no source file; the spec calls it
"zero-or-positive". The text of its message is not given anywhere. -/
def ZeroOrPositive (pol : Policy) (n : Int) : Except Failure Unit :=
  CHECKMINT_SIGNAL_VIOLATION_IF_FALSE pol (decide (0 ≤ n)) "zero-or-positive"

/-- Modelled from the spec: the predicate type `NonZero` is used by `concepts.hpp`
line 12 and defined in no source file; the spec calls it "non-zero". The text of
its message is not given anywhere. -/
def NonZero (pol : Policy) (n : Int) : Except Failure Unit :=
  CHECKMINT_SIGNAL_VIOLATION_IF_FALSE pol (decide (n ≠ 0)) "non-zero"

/-- The invariant types used with `int` in `concepts.hpp`. -/
inductive IntTag where
  | ZeroOrPositive
  | NonZero
  deriving DecidableEq, Repr

/-- Calling `N{}(n)` for the invariant types of `concepts.hpp`. -/
def intInv (pol : Policy) : IntTag → Int → Except Failure Unit
  | .ZeroOrPositive => ZeroOrPositive pol
  | .NonZero => NonZero pol

/-- `concepts.hpp` lines 8-9: the pack of `NaturalNumber<T>`. -/
def NaturalNumber : List IntTag :=
  [.ZeroOrPositive]

/-- `concepts.hpp` lines 11-12: the pack of `Denominator<T>`. -/
def Denominator : List IntTag :=
  [.NonZero]

/-! ## `examples/OrderedTuple.cpp` -/

section tuple

variable {α : Type} [LE α] [∀ a b : α, Decidable (a ≤ b)]

/-- `OrderedTuple.cpp` lines 17-25: `check_elements<Index, Total>(tuple)`. A tuple
whose elements have one type `α` is the list of its elements; `std::get<I>` at an
index outside the tuple does not instantiate. -/
def ElementsAscending.check_elements (pol : Policy) (tuple : List α) (Index Total : Nat) :
    Except Failure Unit :=
  if Index + 1 < Total then
    match tuple[Index]?, tuple[Index + 1]? with
    | some current, some next =>
      match CHECKMINT_SIGNAL_VIOLATION_IF_FALSE pol (decide (current ≤ next))
          "Tuple elements are not in ascending order" with
      | .ok _ => ElementsAscending.check_elements pol tuple (Index + 1) Total
      | .error e => .error e
    | _, _ => .error .ill_formed
  else .ok ()
termination_by Total - Index

/-- `OrderedTuple.cpp` lines 10-14: `ElementsAscending<Ts...>::operator()`, with
`sizeof...(Ts)` the number of elements of the tuple. -/
def ElementsAscending (pol : Policy) (tuple : List α) : Except Failure Unit :=
  if 2 ≤ tuple.length then
    ElementsAscending.check_elements pol tuple 0 tuple.length
  else
    .error (.static_assert_failed "Ordered tuple must have at least two elements")

end tuple

/-- The invariant types used with tuples in `OrderedTuple.cpp`. -/
inductive TupleTag where
  | ElementsAscending
  deriving DecidableEq, Repr

/-- Calling `N{}(tuple)` for the invariant types of `OrderedTuple.cpp`, at
`std::tuple<int, ..., int>`. -/
def tupleInv (pol : Policy) : TupleTag → List Int → Except Failure Unit
  | .ElementsAscending => ElementsAscending pol

/-- `OrderedTuple.cpp` lines 28-29: the pack of `CheckedOrderedTuple<Ts...>`. -/
def CheckedOrderedTuple : List TupleTag :=
  [.ElementsAscending]

/-! ## Lemmas on the fold of predicates and on the pack algebra -/

section lemmas

variable {Tag : Type} {T U : Type}

theorem check_invariants_ok_of_forall (inv : Tag → T → Except Failure Unit) (Ts : List Tag)
    (v : T) (h : ∀ N ∈ Ts, inv N v = .ok ()) : check_invariants inv Ts v = .ok () := by
  induction Ts with
  | nil => rfl
  | cons N Ns ih =>
    have hN : inv N v = .ok () := h N (List.mem_cons_self N Ns)
    simp only [check_invariants, hN]
    exact ih (fun M hM => h M (List.mem_cons_of_mem N hM))

theorem forall_of_check_invariants_ok (inv : Tag → T → Except Failure Unit) (Ts : List Tag)
    (v : T) (h : check_invariants inv Ts v = .ok ()) : ∀ N ∈ Ts, inv N v = .ok () := by
  induction Ts with
  | nil => intro N hN; cases hN
  | cons M Ms ih =>
    intro N hN
    cases hM : inv M v with
    | error e => simp [check_invariants, hM] at h
    | ok u =>
      simp only [check_invariants, hM] at h
      rcases List.mem_cons.mp hN with rfl | hN
      · exact hM
      · exact ih h N hN

theorem check_invariants_error_of_exists (inv : Tag → T → Except Failure Unit) (Ts : List Tag)
    (v : T) (h : ∃ N ∈ Ts, inv N v ≠ .ok ()) :
    ∃ e, check_invariants inv Ts v = .error e ∧ ∃ N ∈ Ts, inv N v = .error e := by
  induction Ts with
  | nil => obtain ⟨N, hN, _⟩ := h; cases hN
  | cons M Ms ih =>
    cases hM : inv M v with
    | error e =>
      exact ⟨e, by simp [check_invariants, hM], M, List.mem_cons_self M Ms, hM⟩
    | ok u =>
      obtain ⟨N, hN, hrej⟩ := h
      have hMs : ∃ N ∈ Ms, inv N v ≠ .ok () := by
        rcases List.mem_cons.mp hN with rfl | hN
        · exact absurd hM hrej
        · exact ⟨N, hN, hrej⟩
      obtain ⟨e, he, K, hK, hKe⟩ := ih hMs
      exact ⟨e, by simp [check_invariants, hM, he], K, List.mem_cons_of_mem M hK, hKe⟩

theorem check_invariants_congr (inv inv2 : Tag → T → Except Failure Unit) (Ts : List Tag) (v : T)
    (h : ∀ N ∈ Ts, inv2 N v = inv N v) :
    check_invariants inv2 Ts v = check_invariants inv Ts v := by
  induction Ts with
  | nil => rfl
  | cons N Ns ih =>
    simp only [check_invariants, h N (List.mem_cons_self N Ns)]
    rw [ih (fun M hM => h M (List.mem_cons_of_mem N hM))]

theorem check_invariants_append_error (inv : Tag → T → Except Failure Unit) (pre : List Tag)
    (N : Tag) (post : List Tag) (v : T) (e : Failure)
    (hpre : ∀ M ∈ pre, inv M v = .ok ()) (hN : inv N v = .error e) :
    check_invariants inv (pre ++ N :: post) v = .error e := by
  induction pre with
  | nil => simp [check_invariants, hN]
  | cons M Ms ih =>
    simp only [List.cons_append, check_invariants, hpre M (List.mem_cons_self M Ms)]
    exact ih (fun K hK => hpre K (List.mem_cons_of_mem M hK))

theorem exists_first_reject (inv : Tag → T → Except Failure Unit) (S : List Tag) (v : T)
    (h : ∃ N ∈ S, inv N v ≠ .ok ()) :
    ∃ pre N post e, S = pre ++ N :: post ∧ (∀ M ∈ pre, inv M v = .ok ()) ∧
      inv N v = .error e := by
  induction S with
  | nil => obtain ⟨N, hN, _⟩ := h; cases hN
  | cons M Ms ih =>
    cases hM : inv M v with
    | error e => exact ⟨[], M, Ms, e, rfl, fun K hK => absurd hK (List.not_mem_nil K), hM⟩
    | ok u =>
      obtain ⟨N, hN, hrej⟩ := h
      have hMs : ∃ N ∈ Ms, inv N v ≠ .ok () := by
        rcases List.mem_cons.mp hN with rfl | hN
        · exact absurd hM hrej
        · exact ⟨N, hN, hrej⟩
      obtain ⟨pre, K, post, e, hS, hpre, hK⟩ := ih hMs
      refine ⟨M :: pre, K, post, e, by rw [hS]; rfl, ?_, hK⟩
      intro L hL
      rcases List.mem_cons.mp hL with rfl | hL
      · exact hM
      · exact hpre L hL

theorem contains_eq_true_iff [DecidableEq Tag] (N : Tag) (Ts : List Tag) : contains N Ts = true ↔ N ∈ Ts := by
  induction Ts with
  | nil => simp [contains]
  | cons M Ms ih => simp [contains, ih]

theorem is_subset_eq_true_iff [DecidableEq Tag] (A B : List Tag) :
    is_subset A B = true ↔ ∀ N ∈ A, N ∈ B := by
  induction A with
  | nil => simp [is_subset]
  | cons M Ms ih => simp [is_subset, ih, contains_eq_true_iff]

theorem is_same_v_append_eq_true [DecidableEq Tag] (Ts Us : List Tag) (h : is_same_v (Ts ++ Us) = some true) :
    ∃ A, (Ts = [] ∧ Us = [A, A]) ∨ (Ts = [A] ∧ Us = [A]) ∨ (Ts = [A, A] ∧ Us = []) := by
  rcases Ts with _ | ⟨t1, _ | ⟨t2, _ | ⟨t3, Ts⟩⟩⟩ <;>
    rcases Us with _ | ⟨u1, _ | ⟨u2, _ | ⟨u3, Us⟩⟩⟩ <;>
    simp [is_same_v] at h <;> subst h <;> simp

theorem is_subset_of_mem [DecidableEq Tag] (A B : List Tag) (h : is_subset A B = true) (N : Tag) (hN : N ∈ A) :
    N ∈ B :=
  (is_subset_eq_true_iff A B).mp h N hN

theorem contains_eq_false_of_not_mem [DecidableEq Tag] (N : Tag) (Ts : List Tag) (h : N ∉ Ts) :
    contains N Ts = false := by
  cases hc : contains N Ts with
  | false => rfl
  | true => exact absurd ((contains_eq_true_iff N Ts).mp hc) h

/-- The constructor from a raw value delivers only wrappers that satisfy their pack. -/
theorem from_value_holds (inv : Tag → T → Except Failure Unit) (S : List Tag) (v : T)
    (w : CheckedVar Tag T) (h : CheckedVar.from_value inv S v = .ok w) :
    w.Ts = S ∧ w.m_val = v ∧ ∀ N ∈ w.Ts, inv N w.m_val = .ok () := by
  unfold CheckedVar.from_value at h
  cases hc : check_invariants inv S v with
  | error e => simp [hc] at h
  | ok u =>
    simp only [hc, Except.ok.injEq] at h
    subst h
    exact ⟨rfl, rfl, forall_of_check_invariants_ok inv S v hc⟩

/-- The unconstrained converting constructor (the source pack is not a subset of the
target pack) delivers only wrappers that satisfy their pack. -/
theorem from_checked_holds [DecidableEq Tag] (inv : Tag → T → Except Failure Unit) (S' : List Tag)
    (v w : CheckedVar Tag T) (hns : is_subset v.Ts S' = false)
    (h : CheckedVar.from_checked inv S' v = .ok w) :
    ∀ N ∈ w.Ts, inv N w.m_val = .ok () := by
  unfold CheckedVar.from_checked at h
  simp only [IsSubset, hns] at h
  cases hc : check_invariants inv S' v.value with
  | error e => simp [hc] at h
  | ok u =>
    simp [hc] at h
    subst h
    exact forall_of_check_invariants_ok inv S' v.value hc

/-- The conversion operator delivers only wrappers that satisfy their pack. -/
theorem convert_to_holds [DecidableEq Tag] (inv : Tag → T → Except Failure Unit) (self w : CheckedVar Tag T)
    (Us : List Tag) (h : self.convert_to inv Us = .ok w) :
    ∀ N ∈ w.Ts, inv N w.m_val = .ok () := by
  unfold CheckedVar.convert_to at h
  split at h
  · exact (from_value_holds inv Us self.m_val w h).2.2
  · split at h
    · exact (from_value_holds inv Us self.m_val w h).2.2
    · cases h
    · cases h

/-- Assignment leaves the target satisfying its pack when target and source did. -/
theorem assign_holds [DecidableEq Tag] (inv : Tag → T → Except Failure Unit) (self v : CheckedVar Tag T)
    (hself : ∀ N ∈ self.Ts, inv N self.m_val = .ok ())
    (hv : ∀ N ∈ v.Ts, inv N v.m_val = .ok ()) :
    ∀ N ∈ (self.assign v).2.Ts, inv N (self.assign v).2.m_val = .ok () := by
  unfold CheckedVar.assign
  split
  · next hsub =>
    intro N hN
    exact hv N (is_subset_of_mem self.Ts v.Ts hsub N hN)
  · split <;> exact hself

/-- A wrapper that satisfies its pack still does after `modify`, whatever the outcome. -/
theorem modify_holds (inv : Tag → T → Except Failure Unit) (self : CheckedVar Tag T)
    (f : T → T) (hself : ∀ N ∈ self.Ts, inv N self.m_val = .ok ()) :
    ∀ N ∈ (self.modify inv f).2.Ts, inv N (self.modify inv f).2.m_val = .ok () := by
  cases hc : check_invariants inv self.Ts (f self.m_val) with
  | error e =>
    simp only [CheckedVar.modify, hc]
    exact hself
  | ok u =>
    simp only [CheckedVar.modify, hc]
    exact forall_of_check_invariants_ok inv self.Ts (f self.m_val) hc

/-- The wrapper delivered by `map` satisfies its pack at the new payload type. -/
theorem map_holds (invU : Tag → U → Except Failure Unit) (self : CheckedVar Tag T)
    (f : T → U) (w : CheckedVar Tag U) (h : self.map invU f = .ok w) :
    ∀ N ∈ w.Ts, invU N w.m_val = .ok () :=
  (from_value_holds invU self.Ts (f self.m_val) w h).2.2

/-- The wrapper delivered by `add_unique_invariant` satisfies its pack when the
argument did. -/
theorem add_unique_invariant_holds [DecidableEq Tag] (inv : Tag → T → Except Failure Unit) (N : Tag)
    (valid r : CheckedVar Tag T) (hv : ∀ M ∈ valid.Ts, inv M valid.m_val = .ok ())
    (h : add_unique_invariant inv N valid = .ok r) :
    ∀ M ∈ r.Ts, inv M r.m_val = .ok () := by
  unfold add_unique_invariant at h
  split at h
  · cases hc : check_invariants inv [N] valid.value with
    | error e => simp [hc] at h
    | ok u =>
      simp only [hc, Except.ok.injEq] at h
      subst h
      intro M hM
      simp only [CheckedVar.bypass, List.mem_append, List.mem_singleton] at hM
      rcases hM with hM | rfl
      · exact hv M hM
      · exact forall_of_check_invariants_ok inv [M] valid.value hc M (List.mem_singleton_self M)
  · exact (from_value_holds inv valid.Ts valid.value r h).2.2

/-- The wrapper delivered by `validate` on a raw value satisfies its pack. -/
theorem validate_holds (inv : Tag → T → Except Failure Unit) (S : List Tag) (v : T)
    (w : CheckedVar Tag T) (h : validate inv S v = .ok w) :
    ∀ N ∈ w.Ts, inv N w.m_val = .ok () := by
  unfold validate at h
  cases hc : check_invariants inv S v with
  | error e => simp [hc] at h
  | ok u =>
    simp only [hc] at h
    exact (from_value_holds inv S v w h).2.2

/-- The wrapper delivered by `validate` on a wrapper satisfies its pack when the
argument did. -/
theorem validate_checked_holds (inv : Tag → T → Except Failure Unit) (Ns : List Tag)
    (v r : CheckedVar Tag T) (hv : ∀ M ∈ v.Ts, inv M v.m_val = .ok ())
    (h : validate_checked inv Ns v = .ok r) :
    ∀ M ∈ r.Ts, inv M r.m_val = .ok () := by
  unfold validate_checked at h
  cases hc : check_invariants inv Ns v.value with
  | error e => simp [hc] at h
  | ok u =>
    simp only [hc, Except.ok.injEq] at h
    subst h
    intro M hM
    simp only [CheckedVar.bypass, List.mem_append] at hM
    rcases hM with hM | hM
    · exact hv M hM
    · exact forall_of_check_invariants_ok inv Ns v.value hc M hM

end lemmas

section tuple_lemmas

variable {α : Type} [LE α] [∀ a b : α, Decidable (a ≤ b)]

theorem signal_throw_eq (cond : Bool) (msg : String) :
    CHECKMINT_SIGNAL_VIOLATION_IF_FALSE .THROW_ON_INVARIANT_VIOLATION cond msg
      = if cond then .ok () else .error (.logic_error msg) := by
  cases cond <;> rfl

/-- Under the default policy `check_elements<Index, Total>` either returns, and then
every adjacent pair from `Index` on is in order, or throws, and then some adjacent
pair from `Index` on is out of order. -/
theorem check_elements_throw (tuple : List α) (i : Nat) :
    (ElementsAscending.check_elements .THROW_ON_INVARIANT_VIOLATION tuple i tuple.length = .ok () ∧
      ∀ j a b, i ≤ j → tuple[j]? = some a → tuple[j + 1]? = some b → a ≤ b) ∨
    (ElementsAscending.check_elements .THROW_ON_INVARIANT_VIOLATION tuple i tuple.length
        = .error (.logic_error "Tuple elements are not in ascending order") ∧
      ∃ j a b, i ≤ j ∧ tuple[j]? = some a ∧ tuple[j + 1]? = some b ∧ ¬ a ≤ b) := by
  refine ElementsAscending.check_elements.induct .THROW_ON_INVARIANT_VIOLATION tuple
    (fun Index Total => Total = tuple.length →
      (ElementsAscending.check_elements .THROW_ON_INVARIANT_VIOLATION tuple Index Total = .ok () ∧
        ∀ j a b, Index ≤ j → tuple[j]? = some a → tuple[j + 1]? = some b → a ≤ b) ∨
      (ElementsAscending.check_elements .THROW_ON_INVARIANT_VIOLATION tuple Index Total
          = .error (.logic_error "Tuple elements are not in ascending order") ∧
        ∃ j a b, Index ≤ j ∧ tuple[j]? = some a ∧ tuple[j + 1]? = some b ∧ ¬ a ≤ b))
    ?_ ?_ ?_ ?_ i tuple.length rfl
  · intro Index Total hlt current next hnext hcur u hsig ih hT
    have hle : current ≤ next := by
      rw [signal_throw_eq] at hsig
      by_contra hc
      simp [hc] at hsig
    rw [ElementsAscending.check_elements]
    simp only [hlt, if_true, hcur, hnext, hsig]
    rcases ih hT with ⟨hok, hall⟩ | ⟨herr, hex⟩
    · left
      refine ⟨hok, ?_⟩
      intro j a b hj ha hb
      rcases Nat.eq_or_lt_of_le hj with rfl | hj2
      · rw [hcur] at ha
        rw [hnext] at hb
        cases ha
        cases hb
        exact hle
      · exact hall j a b hj2 ha hb
    · right
      refine ⟨herr, ?_⟩
      obtain ⟨j, a, b, hj, ha, hb, hab⟩ := hex
      exact ⟨j, a, b, Nat.le_of_succ_le hj, ha, hb, hab⟩
  · intro Index Total hlt current next hnext hcur e hsig hT
    have hnle : ¬ current ≤ next ∧ e = .logic_error "Tuple elements are not in ascending order" := by
      rw [signal_throw_eq] at hsig
      by_cases hc : current ≤ next
      · simp [hc] at hsig
      · simp [hc] at hsig
        exact ⟨hc, hsig.symm⟩
    right
    rw [ElementsAscending.check_elements]
    simp only [hlt, if_true, hcur, hnext, hsig]
    exact ⟨by rw [hnle.2], Index, current, next, le_refl _, hcur, hnext, hnle.1⟩
  · intro Index Total hlt hnone hT
    exfalso
    subst hT
    have h1 : Index < tuple.length := by omega
    exact hnone tuple[Index] tuple[Index + 1] (List.getElem?_eq_getElem h1)
      (List.getElem?_eq_getElem hlt)
  · intro Index Total hnlt hT
    left
    rw [ElementsAscending.check_elements]
    simp only [hnlt, if_false, true_and]
    intro j a b hj ha hb
    exfalso
    subst hT
    have : j + 1 < tuple.length := by
      by_contra hc
      rw [List.getElem?_eq_none (by omega)] at hb
      cases hb
    omega

end tuple_lemmas

/-! ## Construction from a raw value -/

section claims

variable {Tag : Type} {T U : Type}

/-- C1, the code at a failing input. `validate<ZeroOrPositive>(0)` delivers a wrapper
whose payload satisfies its pack. Building a `CheckedVar<int, ZeroOrPositive, NonZero>`
from it selects the constrained constructor of lines 92-96, which calls no predicate:
the wrapper delivered holds 0 under a pack that contains `NonZero`, and `NonZero` does
not return on 0. Every other listed operation keeps the invariant: see
`from_value_holds`, `from_checked_holds`, `convert_to_holds`, `assign_holds`,
`modify_holds`, `map_holds`, `add_unique_invariant_holds`, `validate_holds`,
`validate_checked_holds`. -/
theorem from_checked_breaks_validity :
    validate (intInv .THROW_ON_INVARIANT_VIOLATION) NaturalNumber 0 = .ok ⟨NaturalNumber, 0⟩ ∧
    (∀ N ∈ NaturalNumber, intInv .THROW_ON_INVARIANT_VIOLATION N 0 = .ok ()) ∧
    CheckedVar.from_checked (intInv .THROW_ON_INVARIANT_VIOLATION)
        [IntTag.ZeroOrPositive, IntTag.NonZero] ⟨NaturalNumber, 0⟩
      = .ok ⟨[IntTag.ZeroOrPositive, IntTag.NonZero], 0⟩ ∧
    IntTag.NonZero ∈ [IntTag.ZeroOrPositive, IntTag.NonZero] ∧
    intInv .THROW_ON_INVARIANT_VIOLATION IntTag.NonZero 0 = .error (.logic_error "non-zero") :=
  ⟨rfl, fun N hN => by
      cases N with
      | ZeroOrPositive => rfl
      | NonZero => simp [NaturalNumber] at hN,
    rfl, by decide, rfl⟩

/-- C2: when every predicate of the pack `S` returns on `v`, `validate<S>(v)` and the
constructor `CheckedVar<T, S>(v)` both deliver a wrapper, its pack is `S` and its
`value()` is `v`. The predicates are arbitrary, so this holds under every policy. -/
theorem validate_of_all_accept (inv : Tag → T → Except Failure Unit) (S : List Tag) (v : T)
    (h : ∀ N ∈ S, inv N v = .ok ()) :
    (∃ w, validate inv S v = .ok w ∧ w.value = v ∧ w.Ts = S) ∧
    (∃ w, CheckedVar.from_value inv S v = .ok w ∧ w.value = v ∧ w.Ts = S) := by
  have hc := check_invariants_ok_of_forall inv S v h
  refine ⟨⟨⟨S, v⟩, ?_, rfl, rfl⟩, ⟨⟨S, v⟩, ?_, rfl, rfl⟩⟩
  · simp [validate, CheckedVar.from_value, hc]
  · simp [CheckedVar.from_value, hc]

/-- Witness of C2 on `OrderedPair.hpp` lines 24-25: the pair (1, 2) under
`FirstSmallerThanSecond`. -/
theorem validate_of_all_accept_witness :
    (∀ N ∈ ValidOrderedPair,
      pairInv .THROW_ON_INVARIANT_VIOLATION N ⟨1, 2⟩ = .ok ()) ∧
    ((∃ w, validate (pairInv .THROW_ON_INVARIANT_VIOLATION) ValidOrderedPair ⟨1, 2⟩ = .ok w ∧
        w.value = ⟨1, 2⟩ ∧ w.Ts = ValidOrderedPair) ∧
     (∃ w, CheckedVar.from_value (pairInv .THROW_ON_INVARIANT_VIOLATION) ValidOrderedPair ⟨1, 2⟩
        = .ok w ∧ w.value = ⟨1, 2⟩ ∧ w.Ts = ValidOrderedPair)) :=
  ⟨fun N _ => by cases N; rfl,
   validate_of_all_accept (pairInv .THROW_ON_INVARIANT_VIOLATION) ValidOrderedPair ⟨1, 2⟩
     (fun N _ => by cases N; rfl)⟩

/-- C3: when some predicate of the pack `S` does not return on `v`, `validate<S>(v)`
and the constructor `CheckedVar<T, S>(v)` deliver no wrapper: both end in the same
signal `e`, and `e` is the signal raised by a predicate of `S` on `v`. Under the
default policy the pair (3, 2) under `FirstSmallerThanSecond` ends in the
`std::logic_error` carrying that predicate's message. -/
theorem validate_of_some_reject (inv : Tag → T → Except Failure Unit) (S : List Tag) (v : T)
    (h : ∃ N ∈ S, inv N v ≠ .ok ()) :
    (∃ e, validate inv S v = .error e ∧ CheckedVar.from_value inv S v = .error e ∧
      ∃ N ∈ S, inv N v = .error e) ∧
    validate (pairInv .THROW_ON_INVARIANT_VIOLATION) ValidOrderedPair ⟨3, 2⟩
      = .error (.logic_error "First number is not smaller than the second") ∧
    CheckedVar.from_value (pairInv .THROW_ON_INVARIANT_VIOLATION) ValidOrderedPair ⟨3, 2⟩
      = .error (.logic_error "First number is not smaller than the second") := by
  obtain ⟨e, he, hN⟩ := check_invariants_error_of_exists inv S v h
  refine ⟨⟨e, ?_, ?_, hN⟩, rfl, rfl⟩
  · simp [validate, he]
  · simp [CheckedVar.from_value, he]

/-- Witness of C3: the integer 0 under the pack `ZeroOrPositive, NonZero`. -/
theorem validate_of_some_reject_witness :
    (∃ N ∈ [IntTag.ZeroOrPositive, IntTag.NonZero],
      intInv .THROW_ON_INVARIANT_VIOLATION N 0 ≠ .ok ()) ∧
    ((∃ e, validate (intInv .THROW_ON_INVARIANT_VIOLATION)
          [IntTag.ZeroOrPositive, IntTag.NonZero] 0 = .error e ∧
        CheckedVar.from_value (intInv .THROW_ON_INVARIANT_VIOLATION)
          [IntTag.ZeroOrPositive, IntTag.NonZero] 0 = .error e ∧
        ∃ N ∈ [IntTag.ZeroOrPositive, IntTag.NonZero],
          intInv .THROW_ON_INVARIANT_VIOLATION N 0 = .error e) ∧
     validate (pairInv .THROW_ON_INVARIANT_VIOLATION) ValidOrderedPair ⟨3, 2⟩
       = .error (.logic_error "First number is not smaller than the second") ∧
     CheckedVar.from_value (pairInv .THROW_ON_INVARIANT_VIOLATION) ValidOrderedPair ⟨3, 2⟩
       = .error (.logic_error "First number is not smaller than the second")) :=
  ⟨⟨IntTag.NonZero, by simp, by
      intro h
      exact absurd h (by simp [intInv, NonZero, CHECKMINT_SIGNAL_VIOLATION_IF_FALSE,
        invariant_violation])⟩,
   validate_of_some_reject (intInv .THROW_ON_INVARIANT_VIOLATION)
     [IntTag.ZeroOrPositive, IntTag.NonZero] 0
     ⟨IntTag.NonZero, by simp, by
      intro h
      exact absurd h (by simp [intInv, NonZero, CHECKMINT_SIGNAL_VIOLATION_IF_FALSE,
        invariant_violation])⟩⟩

/-! ## Mutation -/

/-- C4: when some predicate of the wrapper's pack does not return on the mutated copy
`f(m_val)`, `modify(f)` ends in the signal raised by such a predicate and the wrapper is
the same object as before the call, so `value()` is unchanged. Under the default policy
the pair (1, 2) under `FirstSmallerThanSecond` is constructed, its mutation by
`v.first = 3` throws the predicate's `std::logic_error`, and it still holds (1, 2). -/
theorem modify_of_some_reject (inv : Tag → T → Except Failure Unit) (w : CheckedVar Tag T)
    (f : T → T) (h : ∃ N ∈ w.Ts, inv N (f w.m_val) ≠ .ok ()) :
    (∃ e, (w.modify inv f).1 = .error e ∧ ∃ N ∈ w.Ts, inv N (f w.m_val) = .error e) ∧
    (w.modify inv f).2 = w ∧
    (w.modify inv f).2.value = w.value ∧
    CheckedVar.from_value (pairInv .THROW_ON_INVARIANT_VIOLATION) ValidOrderedPair ⟨1, 2⟩
      = .ok ⟨ValidOrderedPair, ⟨1, 2⟩⟩ ∧
    CheckedVar.modify (pairInv .THROW_ON_INVARIANT_VIOLATION) ⟨ValidOrderedPair, ⟨1, 2⟩⟩
        set_first_3
      = (.error (.logic_error "First number is not smaller than the second"),
         ⟨ValidOrderedPair, ⟨1, 2⟩⟩) := by
  obtain ⟨e, he, hN⟩ := check_invariants_error_of_exists inv w.Ts (f w.m_val) h
  refine ⟨⟨e, ?_, hN⟩, ?_, ?_, rfl, rfl⟩ <;> simp [CheckedVar.modify, he]

/-- Witness of C4: the integer 4 under `NonZero`, mutated to 0. -/
theorem modify_of_some_reject_witness :
    (∃ N ∈ (⟨Denominator, 4⟩ : CheckedVar IntTag Int).Ts,
      intInv .THROW_ON_INVARIANT_VIOLATION N ((fun _ => 0) (4 : Int)) ≠ .ok ()) ∧
    (CheckedVar.modify (intInv .THROW_ON_INVARIANT_VIOLATION) ⟨Denominator, 4⟩ (fun _ => 0)).2
      = ⟨Denominator, 4⟩ :=
  ⟨⟨IntTag.NonZero, by simp [Denominator], by
      intro h
      exact absurd h (by simp [intInv, NonZero, CHECKMINT_SIGNAL_VIOLATION_IF_FALSE,
        invariant_violation])⟩,
   (modify_of_some_reject (intInv .THROW_ON_INVARIANT_VIOLATION) ⟨Denominator, 4⟩ (fun _ => 0)
     ⟨IntTag.NonZero, by simp [Denominator], by
      intro h
      exact absurd h (by simp [intInv, NonZero, CHECKMINT_SIGNAL_VIOLATION_IF_FALSE,
        invariant_violation])⟩).2.1⟩

/-- C5: when every predicate of the wrapper's pack returns on the mutated copy
`f(m_val)`, `modify(f)` returns, `value()` is afterwards the mutated copy and the pack
of the wrapper is the one it had. The predicates are arbitrary, so this holds under
every policy. -/
theorem modify_of_all_accept (inv : Tag → T → Except Failure Unit) (w : CheckedVar Tag T)
    (f : T → T) (h : ∀ N ∈ w.Ts, inv N (f w.m_val) = .ok ()) :
    (w.modify inv f).1 = .ok () ∧
    (w.modify inv f).2.value = f w.value ∧
    (w.modify inv f).2.Ts = w.Ts := by
  have hc := check_invariants_ok_of_forall inv w.Ts (f w.m_val) h
  simp [CheckedVar.modify, hc, CheckedVar.value]

/-- Witness of C5: the pair (1, 2) under `FirstSmallerThanSecond`, mutated by
`v.first = 3` after its second component was raised to 5. -/
theorem modify_of_all_accept_witness :
    (∀ N ∈ (⟨ValidOrderedPair, ⟨1, 5⟩⟩ : CheckedVar PairTag OrderedPair).Ts,
      pairInv .THROW_ON_INVARIANT_VIOLATION N (set_first_3 ⟨1, 5⟩) = .ok ()) ∧
    (CheckedVar.modify (pairInv .THROW_ON_INVARIANT_VIOLATION) ⟨ValidOrderedPair, ⟨1, 5⟩⟩
        set_first_3).2.value = ⟨3, 5⟩ :=
  ⟨fun N _ => by cases N; rfl,
   (modify_of_all_accept (pairInv .THROW_ON_INVARIANT_VIOLATION) ⟨ValidOrderedPair, ⟨1, 5⟩⟩
     set_first_3 (fun N _ => by cases N; rfl)).2.1⟩

/-! ## Conversions between packs -/

/-- C6, the code at a failing input. `CheckedVar<int>(0)` carries the empty pack;
building `Denominator<int>` from it selects the constrained constructor of lines
92-96, because the empty pack is a subset of every pack, and so the result carries
`NonZero`, which is not in the source pack, holds 0, and `NonZero` was never called:
it does not return on 0. -/
theorem from_checked_gains_unchecked :
    CheckedVar.from_value (intInv .THROW_ON_INVARIANT_VIOLATION) [] 0 = .ok ⟨[], 0⟩ ∧
    contains IntTag.NonZero ([] : List IntTag) = false ∧
    contains IntTag.NonZero Denominator = true ∧
    intInv .THROW_ON_INVARIANT_VIOLATION IntTag.NonZero 0 = .error (.logic_error "non-zero") ∧
    CheckedVar.from_checked (intInv .THROW_ON_INVARIANT_VIOLATION) Denominator ⟨[], 0⟩
      = .ok ⟨Denominator, 0⟩ :=
  ⟨rfl, rfl, rfl, rfl, rfl⟩

/-- C7 as stated fails. The wrapper with pack `ZeroOrPositive, NonZero` holding 0 is
what the public bypass constructor of line 213 builds, and also what the converting
constructor delivers from the `ZeroOrPositive` wrapper holding 0. Narrowing it to the pack
`NonZero` calls `NonZero` on the payload, through the conversion operator and through
the converting constructor alike: under the default policy both end in the
predicate's `std::logic_error`, and with predicates that always return both deliver
the wrapper, so the outcome depends on what the predicate does. -/
theorem narrowing_runs_predicates :
    is_subset Denominator [IntTag.ZeroOrPositive, IntTag.NonZero] = true ∧
    CheckedVar.from_checked (intInv .THROW_ON_INVARIANT_VIOLATION)
        [IntTag.ZeroOrPositive, IntTag.NonZero] ⟨NaturalNumber, 0⟩
      = .ok (CheckedVar.bypass [IntTag.ZeroOrPositive, IntTag.NonZero] 0) ∧
    CheckedVar.convert_to (intInv .THROW_ON_INVARIANT_VIOLATION)
        (CheckedVar.bypass [IntTag.ZeroOrPositive, IntTag.NonZero] 0) Denominator
      = .error (.logic_error "non-zero") ∧
    CheckedVar.from_checked (intInv .THROW_ON_INVARIANT_VIOLATION) Denominator
        (CheckedVar.bypass [IntTag.ZeroOrPositive, IntTag.NonZero] 0)
      = .error (.logic_error "non-zero") ∧
    CheckedVar.convert_to (intInv .IGNORE_ON_INVARIANT_VIOLATION)
        (CheckedVar.bypass [IntTag.ZeroOrPositive, IntTag.NonZero] 0) Denominator
      = .ok ⟨Denominator, 0⟩ ∧
    CheckedVar.from_checked (intInv .IGNORE_ON_INVARIANT_VIOLATION) Denominator
        (CheckedVar.bypass [IntTag.ZeroOrPositive, IntTag.NonZero] 0)
      = .ok ⟨Denominator, 0⟩ :=
  ⟨rfl, rfl, rfl, rfl, rfl, rfl⟩

/-- C7, amended: for a wrapper `w` whose payload satisfies every predicate of its own
pack `S`, and a target pack `S'` that is a subset of `S`, the conversion operator and
the converting constructor both deliver a wrapper with pack `S'` whose `value()` is
`w.value()`. -/
theorem narrowing_of_holds [DecidableEq Tag] (inv : Tag → T → Except Failure Unit)
    (w : CheckedVar Tag T) (S' : List Tag)
    (hsub : is_subset S' w.Ts = true) (hw : ∀ N ∈ w.Ts, inv N w.m_val = .ok ()) :
    w.convert_to inv S' = .ok ⟨S', w.value⟩ ∧
    CheckedVar.from_checked inv S' w = .ok ⟨S', w.value⟩ := by
  have hS' : ∀ N ∈ S', inv N w.m_val = .ok () :=
    fun N hN => hw N (is_subset_of_mem S' w.Ts hsub N hN)
  have hc := check_invariants_ok_of_forall inv S' w.m_val hS'
  constructor
  · simp [CheckedVar.convert_to, IsSubset, hsub, CheckedVar.from_value, hc, CheckedVar.value]
  · unfold CheckedVar.from_checked
    split
    · rfl
    · simp [CheckedVar.value, hc]

/-- Witness of C7, amended: `ZeroOrPositive, NonZero` holding 5 narrowed to `NonZero`. -/
theorem narrowing_of_holds_witness :
    is_subset Denominator
      (⟨[IntTag.ZeroOrPositive, IntTag.NonZero], 5⟩ : CheckedVar IntTag Int).Ts = true ∧
    (∀ N ∈ (⟨[IntTag.ZeroOrPositive, IntTag.NonZero], 5⟩ : CheckedVar IntTag Int).Ts,
      intInv .THROW_ON_INVARIANT_VIOLATION N 5 = .ok ()) ∧
    CheckedVar.convert_to (intInv .THROW_ON_INVARIANT_VIOLATION)
        ⟨[IntTag.ZeroOrPositive, IntTag.NonZero], 5⟩ Denominator = .ok ⟨Denominator, 5⟩ ∧
    CheckedVar.from_checked (intInv .THROW_ON_INVARIANT_VIOLATION) Denominator
        ⟨[IntTag.ZeroOrPositive, IntTag.NonZero], 5⟩ = .ok ⟨Denominator, 5⟩ :=
  ⟨rfl, fun N _ => by cases N <;> rfl,
   narrowing_of_holds (intInv .THROW_ON_INVARIANT_VIOLATION)
     ⟨[IntTag.ZeroOrPositive, IntTag.NonZero], 5⟩ Denominator rfl
     (fun N _ => by cases N <;> rfl)⟩

/-- C8 as stated fails, on `concepts.hpp` line 31: `NaturalNumber<int> d(Denominator<int>(3))`.
The target pack `ZeroOrPositive` is not a subset of the source pack `NonZero`, and the
converting constructor delivers the wrapper. -/
theorem foreign_conversion_accepted :
    CheckedVar.from_value (intInv .THROW_ON_INVARIANT_VIOLATION) Denominator 3
      = .ok ⟨Denominator, 3⟩ ∧
    is_subset NaturalNumber Denominator = false ∧
    CheckedVar.from_checked (intInv .THROW_ON_INVARIANT_VIOLATION) NaturalNumber ⟨Denominator, 3⟩
      = .ok ⟨NaturalNumber, 3⟩ :=
  ⟨rfl, rfl, rfl⟩

/-- C8, amended: let the target pack `S'` not be a subset of the pack `S` of `w`.
The conversion operator is refused at build time, whatever the payload, as soon as
`S` is not empty. The converting constructor (also reached by `static_cast`) is not
refused: when `S` is not a subset of `S'` either, it calls the predicates of `S'` on
the payload, delivers a wrapper with pack `S'` and the same `value()` when all of them
return, and otherwise ends in the signal of a predicate of `S'`. A `ZeroOrPositive`
wrapper holding 0 is refused as a `NonZero` wrapper by the operator at build time and
by the constructor with the `std::logic_error` of `NonZero`. -/
theorem foreign_conversion [DecidableEq Tag] (inv : Tag → T → Except Failure Unit)
    (w : CheckedVar Tag T) (S' : List Tag) (h : is_subset S' w.Ts = false) :
    (w.Ts ≠ [] →
      w.convert_to inv S' = .error (.static_assert_failed
        "Invalid conversion requested: Cannot convert to a type with additional constraints.") ∨
      w.convert_to inv S' = .error .ill_formed) ∧
    (is_subset w.Ts S' = false →
      ((∀ N ∈ S', inv N w.value = .ok ()) →
        CheckedVar.from_checked inv S' w = .ok ⟨S', w.value⟩) ∧
      ((∃ N ∈ S', inv N w.value ≠ .ok ()) →
        ∃ e, CheckedVar.from_checked inv S' w = .error e ∧
          ∃ N ∈ S', inv N w.value = .error e)) ∧
    CheckedVar.convert_to (intInv .THROW_ON_INVARIANT_VIOLATION) ⟨NaturalNumber, 0⟩ Denominator
      = .error (.static_assert_failed
          "Invalid conversion requested: Cannot convert to a type with additional constraints.") ∧
    CheckedVar.from_checked (intInv .THROW_ON_INVARIANT_VIOLATION) Denominator ⟨NaturalNumber, 0⟩
      = .error (.logic_error "non-zero") := by
  refine ⟨?_, ?_, rfl, rfl⟩
  · intro hne
    unfold CheckedVar.convert_to
    simp only [IsSubset, h]
    cases hs : is_same_v (w.Ts ++ S') with
    | none => exact Or.inr rfl
    | some b =>
      cases b with
      | false => exact Or.inl rfl
      | true =>
        exfalso
        obtain ⟨A, h1 | h1 | h1⟩ := is_same_v_append_eq_true w.Ts S' hs
        · exact hne h1.1
        · rw [h1.1, h1.2] at h
          simp [is_subset, contains] at h
        · rw [h1.2] at h
          simp [is_subset] at h
  · intro h2
    constructor
    · intro hall
      have hc := check_invariants_ok_of_forall inv S' w.value hall
      simp [CheckedVar.from_checked, IsSubset, h2, hc]
    · intro hex
      obtain ⟨e, he, hN⟩ := check_invariants_error_of_exists inv S' w.value hex
      exact ⟨e, by simp [CheckedVar.from_checked, IsSubset, h2, he], hN⟩

/-- Witness of C8, amended: `NonZero` holding 3, viewed as `ZeroOrPositive`. -/
theorem foreign_conversion_witness :
    is_subset NaturalNumber (⟨Denominator, 3⟩ : CheckedVar IntTag Int).Ts = false ∧
    (CheckedVar.convert_to (intInv .THROW_ON_INVARIANT_VIOLATION) ⟨Denominator, 3⟩
        NaturalNumber = .error (.static_assert_failed
          "Invalid conversion requested: Cannot convert to a type with additional constraints.") ∨
      CheckedVar.convert_to (intInv .THROW_ON_INVARIANT_VIOLATION) ⟨Denominator, 3⟩
        NaturalNumber = .error .ill_formed) ∧
    CheckedVar.from_checked (intInv .THROW_ON_INVARIANT_VIOLATION) NaturalNumber ⟨Denominator, 3⟩
      = .ok ⟨NaturalNumber, 3⟩ :=
  ⟨rfl,
   (foreign_conversion (intInv .THROW_ON_INVARIANT_VIOLATION) ⟨Denominator, 3⟩ NaturalNumber
      (by rfl)).1 (by simp [Denominator]),
   ((foreign_conversion (intInv .THROW_ON_INVARIANT_VIOLATION) ⟨Denominator, 3⟩ NaturalNumber
      (by rfl)).2.1 (by rfl)).1 (fun N _ => by cases N <;> rfl)⟩

/-- C9 as stated fails in both directions. A target with pack `ZeroOrPositive` is
assigned from a source with pack `ZeroOrPositive, NonZero`: the target pack is not a
superset of the source pack, and the assignment is accepted and copies the payload.
A target with pack `ZeroOrPositive, NonZero` is assigned from a source with pack
`ZeroOrPositive`: the target pack is a superset of the source pack, and the assignment
is refused at build time. -/
theorem assign_gate_is_not_superset :
    is_subset [IntTag.ZeroOrPositive, IntTag.NonZero] NaturalNumber = false ∧
    CheckedVar.assign (⟨NaturalNumber, 5⟩ : CheckedVar IntTag Int)
        ⟨[IntTag.ZeroOrPositive, IntTag.NonZero], 7⟩
      = (.ok (), ⟨NaturalNumber, 7⟩) ∧
    is_subset NaturalNumber [IntTag.ZeroOrPositive, IntTag.NonZero] = true ∧
    CheckedVar.assign (⟨[IntTag.ZeroOrPositive, IntTag.NonZero], 5⟩ : CheckedVar IntTag Int)
        ⟨NaturalNumber, 7⟩
      = (.error .ill_formed, ⟨[IntTag.ZeroOrPositive, IntTag.NonZero], 5⟩) :=
  ⟨rfl, rfl, rfl, rfl⟩

/-- C9, amended: assigning a source with pack `U` into a target whose pack `S` names
no tag twice is accepted exactly when `S` is a subset of `U`. When accepted, the target
keeps its pack and its `value()` becomes the source's `value()`; `operator=` takes no
predicate, so none is called. When `S` is not a subset of `U` the assignment is
refused at build time and the target is unchanged. -/
theorem assign_gate [DecidableEq Tag] (self v : CheckedVar Tag T) (hnodup : self.Ts.Nodup) :
    ((self.assign v).1 = .ok () ↔ is_subset self.Ts v.Ts = true) ∧
    (is_subset self.Ts v.Ts = true → (self.assign v).2 = ⟨self.Ts, v.value⟩) ∧
    (is_subset self.Ts v.Ts = false →
      ((self.assign v).1 = .error (.static_assert_failed
          "Invalid assignment requested: Cannot assign to a type with fewer constraints.") ∨
        (self.assign v).1 = .error .ill_formed) ∧
      (self.assign v).2 = self) := by
  cases hsub : is_subset self.Ts v.Ts with
  | true => simp [CheckedVar.assign, IsSubset, hsub]
  | false =>
    have hne : is_same_v (self.Ts ++ v.Ts) ≠ some true := by
      intro hs
      obtain ⟨A, h1 | h1 | h1⟩ := is_same_v_append_eq_true self.Ts v.Ts hs
      · rw [h1.1] at hsub
        simp [is_subset] at hsub
      · rw [h1.1, h1.2] at hsub
        simp [is_subset, contains] at hsub
      · rw [h1.1] at hnodup
        simp at hnodup
    unfold CheckedVar.assign
    simp only [IsSubset, hsub]
    cases hs : is_same_v (self.Ts ++ v.Ts) with
    | none => simp
    | some b =>
      cases b with
      | true => exact absurd hs hne
      | false => simp

/-- Witness of C9, amended: the two assignments of `assign_gate_is_not_superset`. -/
theorem assign_gate_witness :
    (NaturalNumber).Nodup ∧
    CheckedVar.assign (⟨NaturalNumber, 5⟩ : CheckedVar IntTag Int)
        ⟨[IntTag.ZeroOrPositive, IntTag.NonZero], 7⟩
      = (.ok (), ⟨NaturalNumber, 7⟩) ∧
    ([IntTag.ZeroOrPositive, IntTag.NonZero]).Nodup ∧
    (CheckedVar.assign (⟨[IntTag.ZeroOrPositive, IntTag.NonZero], 5⟩ : CheckedVar IntTag Int)
        ⟨NaturalNumber, 7⟩).2 = ⟨[IntTag.ZeroOrPositive, IntTag.NonZero], 5⟩ :=
  ⟨by decide,
   Prod.ext
    ((assign_gate (⟨NaturalNumber, 5⟩ : CheckedVar IntTag Int)
      ⟨[IntTag.ZeroOrPositive, IntTag.NonZero], 7⟩ (by decide)).1.mpr (by rfl))
    ((assign_gate (⟨NaturalNumber, 5⟩ : CheckedVar IntTag Int)
      ⟨[IntTag.ZeroOrPositive, IntTag.NonZero], 7⟩ (by decide)).2.1 (by rfl)),
   by decide,
   ((assign_gate (⟨[IntTag.ZeroOrPositive, IntTag.NonZero], 5⟩ : CheckedVar IntTag Int)
      ⟨NaturalNumber, 7⟩ (by decide)).2.2 (by rfl)).2⟩

/-! ## Widening by one tag -/

/-- C10: for a tag `N` that is not in the pack `S` of `w`, `add_unique_invariant<N>(w)`
delivers a wrapper exactly when the predicate `N` returns on `w.value()`; the wrapper
delivered has pack `S` followed by `N` and the same `value()`; when `N` signals `e`
the call ends in `e`; and the outcome is the same under any other predicates that
agree with these on `N` at `w.value()`, so no predicate of `S` decides it. The
argument is taken by const reference and is not written. -/
theorem add_unique_invariant_of_not_mem [DecidableEq Tag] (inv : Tag → T → Except Failure Unit)
    (N : Tag) (w : CheckedVar Tag T) (h : N ∉ w.Ts) :
    ((∃ r, add_unique_invariant inv N w = .ok r) ↔ inv N w.value = .ok ()) ∧
    (∀ r, add_unique_invariant inv N w = .ok r → r.Ts = w.Ts ++ [N] ∧ r.value = w.value) ∧
    (∀ e, inv N w.value = .error e → add_unique_invariant inv N w = .error e) ∧
    (∀ inv2 : Tag → T → Except Failure Unit, inv2 N w.value = inv N w.value →
      add_unique_invariant inv2 N w = add_unique_invariant inv N w) := by
  have hc := contains_eq_false_of_not_mem N w.Ts h
  have key : ∀ i : Tag → T → Except Failure Unit, add_unique_invariant i N w =
      match i N w.value with
      | .ok _ => .ok (CheckedVar.bypass (w.Ts ++ [N]) w.value)
      | .error e => .error e := by
    intro i
    unfold add_unique_invariant
    simp only [hc, Bool.not_false, if_true, check_invariants]
    cases i N w.value <;> rfl
  refine ⟨?_, ?_, ?_, ?_⟩
  · rw [key inv]
    cases hN : inv N w.value with
    | error e => simp
    | ok u => simp
  · intro r hr
    rw [key inv] at hr
    cases hN : inv N w.value with
    | error e => simp [hN] at hr
    | ok u =>
      simp only [hN, Except.ok.injEq] at hr
      subst hr
      exact ⟨rfl, rfl⟩
  · intro e he
    rw [key inv, he]
  · intro inv2 h2
    rw [key inv, key inv2, h2]

/-- Witness of C10: `NonZero` added to the `ZeroOrPositive` wrapper holding 10. -/
theorem add_unique_invariant_of_not_mem_witness :
    IntTag.NonZero ∉ (⟨NaturalNumber, 10⟩ : CheckedVar IntTag Int).Ts ∧
    ∃ r, add_unique_invariant (intInv .THROW_ON_INVARIANT_VIOLATION) IntTag.NonZero
        ⟨NaturalNumber, 10⟩ = .ok r :=
  ⟨by decide,
   (add_unique_invariant_of_not_mem (intInv .THROW_ON_INVARIANT_VIOLATION) IntTag.NonZero
     ⟨NaturalNumber, 10⟩ (by decide)).1.mpr (by rfl)⟩

/-- C11: for a wrapper `w` whose payload satisfies its pack `S` and a tag `N` that is
in `S`, `add_unique_invariant<N>(w)` delivers a wrapper equal to `w`: its pack is `S`
and its `value()` is `w.value()`; calling it again on the result delivers the same
result. -/
theorem add_unique_invariant_of_mem [DecidableEq Tag] (inv : Tag → T → Except Failure Unit)
    (N : Tag) (w : CheckedVar Tag T) (hN : N ∈ w.Ts)
    (hw : ∀ M ∈ w.Ts, inv M w.m_val = .ok ()) :
    (∃ r, add_unique_invariant inv N w = .ok r ∧ r.Ts = w.Ts ∧ r.value = w.value) ∧
    add_unique_invariant inv N w = .ok w ∧
    (add_unique_invariant inv N w >>= add_unique_invariant inv N)
      = add_unique_invariant inv N w := by
  have hc : contains N w.Ts = true := (contains_eq_true_iff N w.Ts).mpr hN
  have hk := check_invariants_ok_of_forall inv w.Ts w.m_val hw
  have h1 : add_unique_invariant inv N w = .ok w := by
    simp [add_unique_invariant, hc, CheckedVar.from_value, CheckedVar.value, hk]
  refine ⟨⟨w, h1, rfl, rfl⟩, h1, ?_⟩
  rw [h1]
  exact h1

/-- Witness of C11: `NonZero` added again to the `ZeroOrPositive, NonZero` wrapper
holding 5. -/
theorem add_unique_invariant_of_mem_witness :
    IntTag.NonZero ∈ (⟨[IntTag.ZeroOrPositive, IntTag.NonZero], 5⟩ : CheckedVar IntTag Int).Ts ∧
    (∀ M ∈ (⟨[IntTag.ZeroOrPositive, IntTag.NonZero], 5⟩ : CheckedVar IntTag Int).Ts,
      intInv .THROW_ON_INVARIANT_VIOLATION M 5 = .ok ()) ∧
    add_unique_invariant (intInv .THROW_ON_INVARIANT_VIOLATION) IntTag.NonZero
        ⟨[IntTag.ZeroOrPositive, IntTag.NonZero], 5⟩
      = .ok ⟨[IntTag.ZeroOrPositive, IntTag.NonZero], 5⟩ :=
  ⟨by decide, fun M _ => by cases M <;> rfl,
   (add_unique_invariant_of_mem (intInv .THROW_ON_INVARIANT_VIOLATION) IntTag.NonZero
     ⟨[IntTag.ZeroOrPositive, IntTag.NonZero], 5⟩ (by decide)
     (fun M _ => by cases M <;> rfl)).2.1⟩

/-! ## Widening by a pack, and `map` -/

/-- C12: `validate<N...>(w)` delivers a wrapper exactly when every predicate of the
requested pack `N` returns on `w.value()`; the wrapper delivered has the same
`value()` and a pack whose members are those of `S` and those of `N`; the outcome is
the same under any other predicates that agree with these on the tags of `N` at
`w.value()`, so a predicate of `S` that is not in `N` does not decide it. The argument
is taken by const reference and is not written. -/
theorem validate_checked_composes (inv : Tag → T → Except Failure Unit) (Ns : List Tag)
    (w : CheckedVar Tag T) :
    ((∃ r, validate_checked inv Ns w = .ok r) ↔ ∀ N ∈ Ns, inv N w.value = .ok ()) ∧
    (∀ r, validate_checked inv Ns w = .ok r →
      r.value = w.value ∧ ∀ M, M ∈ r.Ts ↔ M ∈ w.Ts ∨ M ∈ Ns) ∧
    (∀ inv2 : Tag → T → Except Failure Unit, (∀ N ∈ Ns, inv2 N w.value = inv N w.value) →
      validate_checked inv2 Ns w = validate_checked inv Ns w) := by
  refine ⟨?_, ?_, ?_⟩
  · constructor
    · rintro ⟨r, hr⟩
      unfold validate_checked at hr
      cases hc : check_invariants inv Ns w.value with
      | error e => simp [hc] at hr
      | ok u => exact forall_of_check_invariants_ok inv Ns w.value hc
    · intro hall
      have hc := check_invariants_ok_of_forall inv Ns w.value hall
      exact ⟨CheckedVar.bypass (w.Ts ++ Ns) w.value, by simp [validate_checked, hc]⟩
  · intro r hr
    unfold validate_checked at hr
    cases hc : check_invariants inv Ns w.value with
    | error e => simp [hc] at hr
    | ok u =>
      simp only [hc, Except.ok.injEq] at hr
      subst hr
      exact ⟨rfl, fun M => by simp [CheckedVar.bypass]⟩
  · intro inv2 h2
    unfold validate_checked
    rw [check_invariants_congr inv inv2 Ns w.value h2]

/-- C13: `w.map(f)` delivers a wrapper exactly when every predicate of the pack `S` of
`w` returns on `f(v)`; the wrapper delivered has `value()` equal to `f(v)` and pack
`S`; when some predicate of `S` does not return on `f(v)` the call ends in the signal
of such a predicate and delivers nothing. `map` is a const member and `w` is not
written. -/
theorem map_revalidates (invU : Tag → U → Except Failure Unit) (w : CheckedVar Tag T)
    (f : T → U) :
    ((∃ r, w.map invU f = .ok r) ↔ ∀ N ∈ w.Ts, invU N (f w.value) = .ok ()) ∧
    (∀ r, w.map invU f = .ok r → r.value = f w.value ∧ r.Ts = w.Ts) ∧
    ((∃ N ∈ w.Ts, invU N (f w.value) ≠ .ok ()) →
      ∃ e, w.map invU f = .error e ∧ ∃ N ∈ w.Ts, invU N (f w.value) = .error e) := by
  refine ⟨?_, ?_, ?_⟩
  · constructor
    · rintro ⟨r, hr⟩
      obtain ⟨hTs, hval, hall⟩ := from_value_holds invU w.Ts (f w.m_val) r hr
      intro N hN
      have := hall N (by rw [hTs]; exact hN)
      rw [hval] at this
      exact this
    · intro hall
      have hc := check_invariants_ok_of_forall invU w.Ts (f w.value) hall
      exact ⟨⟨w.Ts, f w.value⟩, by
        simp only [CheckedVar.map, CheckedVar.from_value]
        simp only [CheckedVar.value] at hc
        simp [hc, CheckedVar.value]⟩
  · intro r hr
    obtain ⟨hTs, hval, _⟩ := from_value_holds invU w.Ts (f w.m_val) r hr
    exact ⟨hval, hTs⟩
  · intro hex
    obtain ⟨e, he, hN⟩ := check_invariants_error_of_exists invU w.Ts (f w.value) hex
    refine ⟨e, ?_, hN⟩
    simp only [CheckedVar.value] at he
    simp [CheckedVar.map, CheckedVar.from_value, he]

/-! ## The pack algebra and the fold of predicates -/

/-- C14: `is_subset<A, B>` is true exactly when every tag of `A` occurs in `B`, and
`contains<t, B...>` is true exactly when `t` occurs in `B`; both are functions defined
on all packs, with `is_subset` of the empty pack true and `contains` in the empty pack
false; the concept `IsSubset` is the value of `is_subset`. -/
theorem subset_algebra [DecidableEq Tag] (A B : List Tag) (t : Tag) :
    (is_subset A B = true ↔ ∀ x ∈ A, x ∈ B) ∧
    (contains t B = true ↔ t ∈ B) ∧
    is_subset [] B = true ∧
    contains t ([] : List Tag) = false ∧
    IsSubset A B = is_subset A B :=
  ⟨is_subset_eq_true_iff A B, contains_eq_true_iff t B, rfl, rfl, rfl⟩

/-- C15: when some predicate of the ordered pack `S` does not return on `v`, the pack
splits as `pre`, `N`, `post` where every predicate of `pre` returns on `v` and `N`
raises a signal `e`; `check_invariants<S>(v)` ends in `e` alone, it does so whatever
pack `post2` stands after `N`, and the constructor from `v`, `validate`, `modify` with a
mutation that yields `v`, and `map` with a transform that yields `v`, all end in `e`.
Under the default policy `e` is the `std::logic_error` carrying the message of `N`. -/
theorem check_invariants_short_circuit (inv : Tag → T → Except Failure Unit) (S : List Tag)
    (v : T) (h : ∃ N ∈ S, inv N v ≠ .ok ()) :
    ∃ pre N post e, S = pre ++ N :: post ∧ (∀ M ∈ pre, inv M v = .ok ()) ∧
      inv N v = .error e ∧
      check_invariants inv S v = .error e ∧
      (∀ post2, check_invariants inv (pre ++ N :: post2) v = .error e) ∧
      CheckedVar.from_value inv S v = .error e ∧
      validate inv S v = .error e ∧
      (∀ (x : T) (f : T → T), f x = v → (CheckedVar.modify inv ⟨S, x⟩ f).1 = .error e) ∧
      (∀ (X : Type) (x : X) (f : X → T), f x = v → CheckedVar.map inv ⟨S, x⟩ f = .error e) := by
  obtain ⟨pre, N, post, e, hS, hpre, hN⟩ := exists_first_reject inv S v h
  have hall := check_invariants_append_error inv pre N
  have hc : check_invariants inv S v = .error e := by
    rw [hS]
    exact hall post v e hpre hN
  refine ⟨pre, N, post, e, hS, hpre, hN, hc, fun post2 => hall post2 v e hpre hN, ?_, ?_, ?_, ?_⟩
  · simp [CheckedVar.from_value, hc]
  · simp [validate, hc]
  · intro x f hf
    simp [CheckedVar.modify, hf, hc]
  · intro X x f hf
    simp [CheckedVar.map, CheckedVar.from_value, hf, hc]

/-- Witness of C15: the integer -1 under the pack `NonZero, ZeroOrPositive, NonZero`;
the first predicate returns and the second throws. -/
theorem check_invariants_short_circuit_witness :
    (∃ N ∈ [IntTag.NonZero, IntTag.ZeroOrPositive, IntTag.NonZero],
      intInv .THROW_ON_INVARIANT_VIOLATION N (-1) ≠ .ok ()) ∧
    ∃ pre N post e, [IntTag.NonZero, IntTag.ZeroOrPositive, IntTag.NonZero] = pre ++ N :: post ∧
      (∀ M ∈ pre, intInv .THROW_ON_INVARIANT_VIOLATION M (-1) = .ok ()) ∧
      intInv .THROW_ON_INVARIANT_VIOLATION N (-1) = .error e ∧
      check_invariants (intInv .THROW_ON_INVARIANT_VIOLATION)
        [IntTag.NonZero, IntTag.ZeroOrPositive, IntTag.NonZero] (-1) = .error e :=
  ⟨⟨IntTag.ZeroOrPositive, by decide, by
      intro h
      exact absurd h (by simp [intInv, ZeroOrPositive, CHECKMINT_SIGNAL_VIOLATION_IF_FALSE,
        invariant_violation])⟩,
   by
    obtain ⟨pre, N, post, e, h1, h2, h3, h4, _⟩ :=
      check_invariants_short_circuit (intInv .THROW_ON_INVARIANT_VIOLATION)
        [IntTag.NonZero, IntTag.ZeroOrPositive, IntTag.NonZero] (-1)
        ⟨IntTag.ZeroOrPositive, by decide, by
          intro h
          exact absurd h (by simp [intInv, ZeroOrPositive, CHECKMINT_SIGNAL_VIOLATION_IF_FALSE,
            invariant_violation])⟩
    exact ⟨pre, N, post, e, h1, h2, h3, h4⟩⟩

/-! ## `ElementsAscending` -/

/-- C16: under the default policy, for a tuple of at least two elements,
`ElementsAscending` returns exactly when every element is at most its successor;
otherwise it throws the `std::logic_error` with its message; and a tuple with an
adjacent pair `a`, `b` out of order is rejected whatever elements `post` stand after
the pair. The tuple (1, 4, 3) passes the first comparison, throws at the second and
is not constructed; the tuple (1, 3, 4) is constructed. -/
theorem ElementsAscending_iff_ascending {α : Type} [LE α] [∀ a b : α, Decidable (a ≤ b)]
    (tuple : List α) (h : 2 ≤ tuple.length) :
    (ElementsAscending .THROW_ON_INVARIANT_VIOLATION tuple = .ok () ↔
      ∀ i a b, tuple[i]? = some a → tuple[i + 1]? = some b → a ≤ b) ∧
    (ElementsAscending .THROW_ON_INVARIANT_VIOLATION tuple ≠ .ok () →
      ElementsAscending .THROW_ON_INVARIANT_VIOLATION tuple
        = .error (.logic_error "Tuple elements are not in ascending order")) ∧
    (∀ (pre : List α) (a b : α) (post : List α), ¬ a ≤ b →
      ElementsAscending .THROW_ON_INVARIANT_VIOLATION (pre ++ a :: b :: post)
        = .error (.logic_error "Tuple elements are not in ascending order")) ∧
    CHECKMINT_SIGNAL_VIOLATION_IF_FALSE .THROW_ON_INVARIANT_VIOLATION (decide ((1 : Int) ≤ 4))
      "Tuple elements are not in ascending order" = .ok () ∧
    ElementsAscending.check_elements .THROW_ON_INVARIANT_VIOLATION [(1 : Int), 4, 3] 1 3
      = .error (.logic_error "Tuple elements are not in ascending order") ∧
    CheckedVar.from_value (tupleInv .THROW_ON_INVARIANT_VIOLATION) CheckedOrderedTuple [1, 4, 3]
      = .error (.logic_error "Tuple elements are not in ascending order") ∧
    CheckedVar.from_value (tupleInv .THROW_ON_INVARIANT_VIOLATION) CheckedOrderedTuple [1, 3, 4]
      = .ok ⟨CheckedOrderedTuple, [1, 3, 4]⟩ := by
  have key : ∀ t : List α, 2 ≤ t.length →
      (ElementsAscending .THROW_ON_INVARIANT_VIOLATION t = .ok () ∧
        ∀ j a b, t[j]? = some a → t[j + 1]? = some b → a ≤ b) ∨
      (ElementsAscending .THROW_ON_INVARIANT_VIOLATION t
          = .error (.logic_error "Tuple elements are not in ascending order") ∧
        ∃ j a b, t[j]? = some a ∧ t[j + 1]? = some b ∧ ¬ a ≤ b) := by
    intro t ht
    have hE : ElementsAscending .THROW_ON_INVARIANT_VIOLATION t
        = ElementsAscending.check_elements .THROW_ON_INVARIANT_VIOLATION t 0 t.length := by
      simp [ElementsAscending, ht]
    rw [hE]
    rcases check_elements_throw t 0 with ⟨hok, hall⟩ | ⟨herr, j, a, b, _, ha, hb, hab⟩
    · exact Or.inl ⟨hok, fun j a b ha hb => hall j a b (Nat.zero_le j) ha hb⟩
    · exact Or.inr ⟨herr, j, a, b, ha, hb, hab⟩
  refine ⟨?_, ?_, ?_, ?_, ?_, ?_, ?_⟩
  · rcases key tuple h with ⟨hok, hall⟩ | ⟨herr, j, a, b, ha, hb, hab⟩
    · exact ⟨fun _ => hall, fun _ => hok⟩
    · constructor
      · intro hok
        rw [herr] at hok
        cases hok
      · intro hall
        exact absurd (hall j a b ha hb) hab
  · intro hne
    rcases key tuple h with ⟨hok, _⟩ | ⟨herr, _⟩
    · exact absurd hok hne
    · exact herr
  · intro pre a b post hab
    have hlen : 2 ≤ (pre ++ a :: b :: post).length := by
      simp only [List.length_append, List.length_cons]
      omega
    rcases key (pre ++ a :: b :: post) hlen with ⟨_, hall⟩ | ⟨herr, _⟩
    · exfalso
      apply hab
      apply hall pre.length a b
      · rw [List.getElem?_append_right (le_refl _)]
        simp
      · rw [List.getElem?_append_right (by omega)]
        simp
    · exact herr
  · rfl
  · simp [ElementsAscending.check_elements, CHECKMINT_SIGNAL_VIOLATION_IF_FALSE,
      invariant_violation]
  · simp [CheckedVar.from_value, check_invariants, tupleInv, CheckedOrderedTuple,
      ElementsAscending, ElementsAscending.check_elements, CHECKMINT_SIGNAL_VIOLATION_IF_FALSE,
      invariant_violation]
  · simp [CheckedVar.from_value, check_invariants, tupleInv, CheckedOrderedTuple,
      ElementsAscending, ElementsAscending.check_elements, CHECKMINT_SIGNAL_VIOLATION_IF_FALSE]

/-- Witness of C16: the tuple (2, 2, 7). -/
theorem ElementsAscending_iff_ascending_witness :
    2 ≤ [(2 : Int), 2, 7].length ∧
    (ElementsAscending .THROW_ON_INVARIANT_VIOLATION [(2 : Int), 2, 7] = .ok () ↔
      ∀ i a b, [(2 : Int), 2, 7][i]? = some a → [(2 : Int), 2, 7][i + 1]? = some b → a ≤ b) :=
  ⟨by decide, (ElementsAscending_iff_ascending [(2 : Int), 2, 7] (by decide)).1⟩

/-! ## Repeated tags, operators, and the already-present branch -/

/-- C17 as stated fails for `validate<N...>(w)`: the return type of lines 250-252 is
`CheckedVar<T, Ts..., Ns...>`, so validating a `ZeroOrPositive` wrapper against
`ZeroOrPositive` delivers a wrapper whose pack names `ZeroOrPositive` twice. -/
theorem validate_checked_repeats_tag :
    (NaturalNumber).Nodup ∧
    validate_checked (intInv .THROW_ON_INVARIANT_VIOLATION) NaturalNumber ⟨NaturalNumber, 5⟩
      = .ok ⟨[IntTag.ZeroOrPositive, IntTag.ZeroOrPositive], 5⟩ ∧
    ¬ ([IntTag.ZeroOrPositive, IntTag.ZeroOrPositive]).Nodup :=
  ⟨by decide, rfl, by decide⟩

/-- C17, amended: for a wrapper `w` whose pack `S` names no tag twice, the wrapper
delivered by `add_unique_invariant<N>(w)` has a pack that names no tag twice; for a
requested pack `N` that names no tag twice, the wrapper delivered by `validate<N...>(w)`
has the pack `S` followed by `N`, which names no tag twice exactly when no tag of `N`
is in `S`. -/
theorem widened_pack_nodup [DecidableEq Tag] (inv : Tag → T → Except Failure Unit)
    (w : CheckedVar Tag T) (N : Tag) (Ns : List Tag) (hw : w.Ts.Nodup) (hNs : Ns.Nodup) :
    (∀ r, add_unique_invariant inv N w = .ok r → r.Ts.Nodup) ∧
    (∀ r, validate_checked inv Ns w = .ok r →
      r.Ts = w.Ts ++ Ns ∧ (r.Ts.Nodup ↔ ∀ M ∈ Ns, M ∉ w.Ts)) := by
  constructor
  · intro r hr
    unfold add_unique_invariant at hr
    split at hr
    · next hc =>
      cases hk : check_invariants inv [N] w.value with
      | error e => simp [hk] at hr
      | ok u =>
        simp only [hk, Except.ok.injEq] at hr
        subst hr
        have hN : N ∉ w.Ts := by
          intro hmem
          rw [(contains_eq_true_iff N w.Ts).mpr hmem] at hc
          simp at hc
        simp only [CheckedVar.bypass]
        rw [List.nodup_append]
        refine ⟨hw, List.nodup_singleton N, ?_⟩
        intro M hM hM2
        rw [List.mem_singleton] at hM2
        subst hM2
        exact hN hM
    · rw [(from_value_holds inv w.Ts w.value r hr).1]
      exact hw
  · intro r hr
    unfold validate_checked at hr
    cases hk : check_invariants inv Ns w.value with
    | error e => simp [hk] at hr
    | ok u =>
      simp only [hk, Except.ok.injEq] at hr
      subst hr
      refine ⟨rfl, ?_⟩
      simp only [CheckedVar.bypass]
      rw [List.nodup_append]
      constructor
      · rintro ⟨_, _, hdis⟩ M hM hM2
        exact hdis hM2 hM
      · intro hall
        exact ⟨hw, hNs, fun M hM hM2 => hall M hM2 hM⟩

/-- Witness of C17, amended: `NonZero` requested of the `ZeroOrPositive` wrapper
holding 5. -/
theorem widened_pack_nodup_witness :
    (⟨NaturalNumber, 5⟩ : CheckedVar IntTag Int).Ts.Nodup ∧ (Denominator).Nodup ∧
    (∀ r, add_unique_invariant (intInv .THROW_ON_INVARIANT_VIOLATION) IntTag.NonZero
        ⟨NaturalNumber, 5⟩ = .ok r → r.Ts.Nodup) :=
  ⟨by decide, by decide,
   (widened_pack_nodup (intInv .THROW_ON_INVARIANT_VIOLATION) ⟨NaturalNumber, 5⟩ IntTag.NonZero
     Denominator (by decide) (by decide)).1⟩

/-- C18: for checked values `a` and `b` of one payload type, with any packs, and a raw
value `x`, each of `a+x`, `a-x`, `a*x`, `a/x`, `a<=>x`, `a+b`, `a-b`, `a*b`, `a/b`,
`a<=>b` is the payload's own operator at `a.value()` and `x`, respectively `b.value()`.
The results have the type the payload's operator returns, not `CheckedVar`, and the
operators take no predicate. With `n` holding 0 and `m` holding 10,
`n - (m - 3) * (n + m)` is the integer -70. -/
theorem operators_pass_through {Ra Rs Rm Rd : Type} [Ord T] [HAdd T T Ra] [HSub T T Rs]
    [HMul T T Rm] [HDiv T T Rd] (a b : CheckedVar Tag T) (x : T) :
    (a.add x : Ra) = a.value + x ∧
    (a.sub x : Rs) = a.value - x ∧
    (a.mul x : Rm) = a.value * x ∧
    (a.div x : Rd) = a.value / x ∧
    a.spaceship x = compare a.value x ∧
    (a.add_checked b : Ra) = a.value + b.value ∧
    (a.sub_checked b : Rs) = a.value - b.value ∧
    (a.mul_checked b : Rm) = a.value * b.value ∧
    (a.div_checked b : Rd) = a.value / b.value ∧
    a.spaceship_checked b = compare a.value b.value ∧
    (CheckedVar.sub (⟨NaturalNumber, 0⟩ : CheckedVar IntTag Int)
        ((CheckedVar.sub (⟨NaturalNumber, 10⟩ : CheckedVar IntTag Int) 3 : Int)
          * (CheckedVar.add_checked (⟨NaturalNumber, 0⟩ : CheckedVar IntTag Int)
              ⟨NaturalNumber, 10⟩ : Int)) : Int) = -70 :=
  ⟨rfl, rfl, rfl, rfl, rfl, rfl, rfl, rfl, rfl, rfl, by decide⟩

/-- C19 as stated fails. The wrapper with pack `NonZero` holding 0 is what the public
bypass constructor of line 213 builds. `NonZero` is in its pack, and
`add_unique_invariant<NonZero>` on it calls `NonZero` through the constructor of
lines 85-89: under the default policy the call throws, and with predicates that always
return it delivers the wrapper. -/
theorem add_unique_invariant_runs_predicates :
    IntTag.NonZero ∈ (CheckedVar.bypass Denominator 0 : CheckedVar IntTag Int).Ts ∧
    add_unique_invariant (intInv .THROW_ON_INVARIANT_VIOLATION) IntTag.NonZero
        (CheckedVar.bypass Denominator 0)
      = .error (.logic_error "non-zero") ∧
    add_unique_invariant (intInv .IGNORE_ON_INVARIANT_VIOLATION) IntTag.NonZero
        (CheckedVar.bypass Denominator 0)
      = .ok ⟨Denominator, 0⟩ :=
  ⟨by decide, rfl, rfl⟩

/-- C19, amended: for a tag `N` that is in the pack `S` of `w`, `add_unique_invariant<N>(w)`
calls every predicate of `S` on the payload: it delivers a wrapper exactly when all of
them return, the wrapper delivered is equal to `w`, and when one of them does not
return the call ends in the signal of a predicate of `S`. -/
theorem add_unique_invariant_rechecks [DecidableEq Tag] (inv : Tag → T → Except Failure Unit)
    (N : Tag) (w : CheckedVar Tag T) (hN : N ∈ w.Ts) :
    ((∃ r, add_unique_invariant inv N w = .ok r) ↔ ∀ M ∈ w.Ts, inv M w.value = .ok ()) ∧
    (∀ r, add_unique_invariant inv N w = .ok r → r = w) ∧
    ((∃ M ∈ w.Ts, inv M w.value ≠ .ok ()) →
      ∃ e, add_unique_invariant inv N w = .error e ∧ ∃ M ∈ w.Ts, inv M w.value = .error e) := by
  have hc : contains N w.Ts = true := (contains_eq_true_iff N w.Ts).mpr hN
  have key : add_unique_invariant inv N w = CheckedVar.from_value inv w.Ts w.value := by
    simp [add_unique_invariant, hc]
  rw [key]
  refine ⟨?_, ?_, ?_⟩
  · constructor
    · rintro ⟨r, hr⟩
      obtain ⟨hTs, hval, hall⟩ := from_value_holds inv w.Ts w.value r hr
      intro M hM
      have := hall M (by rw [hTs]; exact hM)
      rw [hval] at this
      exact this
    · intro hall
      have hk := check_invariants_ok_of_forall inv w.Ts w.value hall
      exact ⟨⟨w.Ts, w.value⟩, by simp [CheckedVar.from_value, hk]⟩
  · intro r hr
    obtain ⟨hTs, hval, _⟩ := from_value_holds inv w.Ts w.value r hr
    cases r
    cases w
    simp only [CheckedVar.value] at hTs hval
    simp [hTs, hval]
  · intro hex
    obtain ⟨e, he, hM⟩ := check_invariants_error_of_exists inv w.Ts w.value hex
    exact ⟨e, by simp [CheckedVar.from_value, he], hM⟩

/-- Witness of C19, amended: `ZeroOrPositive` added again to the `ZeroOrPositive`
wrapper holding 0. -/
theorem add_unique_invariant_rechecks_witness :
    IntTag.ZeroOrPositive ∈ (⟨NaturalNumber, 0⟩ : CheckedVar IntTag Int).Ts ∧
    ∃ r, add_unique_invariant (intInv .THROW_ON_INVARIANT_VIOLATION) IntTag.ZeroOrPositive
      ⟨NaturalNumber, 0⟩ = .ok r :=
  ⟨by decide,
   (add_unique_invariant_rechecks (intInv .THROW_ON_INVARIANT_VIOLATION) IntTag.ZeroOrPositive
     ⟨NaturalNumber, 0⟩ (by decide)).1.mpr (fun M hM => by
       cases M with
       | ZeroOrPositive => rfl
       | NonZero => simp [NaturalNumber] at hM)⟩

/-- C20: when the gate of line 134 holds (the pack `Ts` of the target is a subset of
the pack `Us` of the source) and the payload of the source satisfies every predicate
of `Us`, `operator=` returns, the target's `value()` is the source's `value()`, the
target keeps its pack, and the target's payload satisfies every predicate of `Ts`.
The source is taken by const reference and is not written. -/
theorem assign_safe [DecidableEq Tag] (inv : Tag → T → Except Failure Unit)
    (self v : CheckedVar Tag T) (hgate : IsSubset self.Ts v.Ts = true)
    (hv : ∀ N ∈ v.Ts, inv N v.m_val = .ok ()) :
    (self.assign v).1 = .ok () ∧
    (self.assign v).2.value = v.value ∧
    (self.assign v).2.Ts = self.Ts ∧
    ∀ N ∈ (self.assign v).2.Ts, inv N (self.assign v).2.value = .ok () := by
  have h : self.assign v = (.ok (), { self with m_val := v.value }) := by
    simp [CheckedVar.assign, hgate]
  rw [h]
  refine ⟨rfl, rfl, rfl, ?_⟩
  intro N hN
  exact hv N (is_subset_of_mem self.Ts v.Ts hgate N hN)

/-- Witness of C20: the `ZeroOrPositive, NonZero` wrapper holding 7 assigned into the
`ZeroOrPositive` wrapper holding 5. -/
theorem assign_safe_witness :
    IsSubset (⟨NaturalNumber, 5⟩ : CheckedVar IntTag Int).Ts
      (⟨[IntTag.ZeroOrPositive, IntTag.NonZero], 7⟩ : CheckedVar IntTag Int).Ts = true ∧
    (∀ N ∈ (⟨[IntTag.ZeroOrPositive, IntTag.NonZero], 7⟩ : CheckedVar IntTag Int).Ts,
      intInv .THROW_ON_INVARIANT_VIOLATION N 7 = .ok ()) ∧
    (CheckedVar.assign (⟨NaturalNumber, 5⟩ : CheckedVar IntTag Int)
      ⟨[IntTag.ZeroOrPositive, IntTag.NonZero], 7⟩).2.value = 7 :=
  ⟨by rfl, fun N _ => by cases N <;> rfl,
   (assign_safe (intInv .THROW_ON_INVARIANT_VIOLATION) ⟨NaturalNumber, 5⟩
     ⟨[IntTag.ZeroOrPositive, IntTag.NonZero], 7⟩ (by rfl)
     (fun N _ => by cases N <;> rfl)).2.1⟩

end claims

end checkmint
